import Mathlib

/-!
Shallow embedding of the metals state-synchronization core of the
Metal-Track-App repository: the reducer-driven store (MetalsContext),
its refresh / history-fetch / lookup operations, and the GoldAPIService
history generator with its cache.

Modelling conventions:
* JS numbers are modelled as `Rat` (the claims checked here never depend on
  floating-point rounding); `Math.sin` is an opaque float function and is
  passed in as a parameter `sinq : Rat → Rat`; `Math.PI` is the decimal
  literal of the double constant.
* ISO timestamp strings are modelled by their underlying millisecond value
  (`Int`); `new Date().toISOString()` inside the reducer and the service is
  modelled by an explicit `now : Int` parameter.
* The upstream price source (`goldApi.getMetalPrice`) is passed to
  `refreshPrices` as a stub `outcomes : MetalSymbol → Except String MetalPrice`
  (success with a quote, or a thrown error whose `.message` is the string).
* `metal.symbol` is declared `string` in the source but every constructed
  value is one of the four market symbols (the source casts it with
  `as any` when calling the service), so it is modelled by the enumeration.
-/

inductive MetalSymbol where
  | XAU | XAG | XPT | XPD
deriving DecidableEq, Repr

inductive Timeframe where
  | h24 | week | month
deriving DecidableEq, Repr

/-- `MetalPrice` from `types/metals.ts`; numeric fields as `Rat`,
`timestamp` as epoch milliseconds. -/
structure MetalPrice where
  metal : MetalSymbol
  currency : String
  price : Rat
  price_gram_24k : Rat
  timestamp : Int
  prev_close_price : Rat
  open_price : Rat
  low_price : Rat
  high_price : Rat
  ch : Rat
  chp : Rat
deriving DecidableEq, Repr

/-- `HistoricalDataPoint` from `types/metals.ts`: `date` as epoch ms. -/
structure HistoricalDataPoint where
  date : Int
  price : Rat
deriving DecidableEq, Repr

/-- The `historicalData` object map `{'24h'?, 'Week'?, 'Month'?}` of a metal. -/
structure HistoricalData where
  h24 : Option (List HistoricalDataPoint) := none
  week : Option (List HistoricalDataPoint) := none
  month : Option (List HistoricalDataPoint) := none
deriving DecidableEq, Repr

def HistoricalData.lookup (h : HistoricalData) : Timeframe → Option (List HistoricalDataPoint)
  | .h24 => h.h24
  | .week => h.week
  | .month => h.month

/-- `{ ...m.historicalData, [timeframe]: data }` -/
def HistoricalData.insert (h : HistoricalData) : Timeframe → List HistoricalDataPoint → HistoricalData
  | .h24, d => { h with h24 := some d }
  | .week, d => { h with week := some d }
  | .month, d => { h with month := some d }

/-- `MetalData` from `types/metals.ts`. -/
structure MetalData where
  id : String
  name : String
  symbol : MetalSymbol
  icon : String
  loading : Bool
  price : Option MetalPrice := none
  error : Option String := none
  historicalData : HistoricalData := {}
deriving DecidableEq, Repr

/-- `AppState` from `types/metals.ts`. -/
structure AppState where
  metals : List MetalData
  lastUpdated : Option Int
  refreshing : Bool
deriving DecidableEq, Repr

/-- `MetalsAction` from `types/metals.ts`. -/
inductive MetalsAction where
  | SET_LOADING (metalId : String) (loading : Bool)
  | SET_PRICE_SUCCESS (metalId : String) (price : MetalPrice)
  | SET_ERROR (metalId : String) (error : String)
  | SET_HISTORICAL_DATA (metalId : String) (timeframe : Timeframe)
      (data : List HistoricalDataPoint)
  | SET_REFRESHING (refreshing : Bool)
deriving DecidableEq, Repr

/-- `DEFAULT_METALS` from `constants/metals.ts` (names, symbols, icons from
`METAL_NAMES`, `METAL_SYMBOLS`, `METAL_ICONS`; no `price`/`error` fields). -/
def DEFAULT_METALS : List MetalData :=
  [ { id := "gold", name := "Gold", symbol := .XAU, icon := "🥇", loading := false },
    { id := "silver", name := "Silver", symbol := .XAG, icon := "🥈", loading := false },
    { id := "platinum", name := "Platinum", symbol := .XPT, icon := "⚪", loading := false },
    { id := "palladium", name := "Palladium", symbol := .XPD, icon := "⚫", loading := false } ]

/-- `initialState` from `MetalsContext.tsx`: the default metals with
`loading: true` and an empty `historicalData` map. -/
def initialState : AppState :=
  { metals := DEFAULT_METALS.map fun metal =>
      { metal with loading := true, historicalData := {} },
    lastUpdated := none,
    refreshing := false }

/-- `metalsReducer` from `MetalsContext.tsx`.  `SET_PRICE_SUCCESS` writes
`new Date().toISOString()` to `lastUpdated`; that clock read is the `now`
parameter. -/
def metalsReducer (now : Int) (state : AppState) (action : MetalsAction) : AppState :=
  match action with
  | .SET_LOADING metalId loading =>
      { state with metals := state.metals.map fun m =>
          if m.id = metalId then { m with loading := loading } else m }
  | .SET_PRICE_SUCCESS metalId price =>
      { state with
        metals := state.metals.map fun m =>
          if m.id = metalId then
            { m with price := some price, loading := false, error := none }
          else m,
        lastUpdated := some now }
  | .SET_ERROR metalId error =>
      { state with metals := state.metals.map fun m =>
          if m.id = metalId then { m with error := some error, loading := false } else m }
  | .SET_HISTORICAL_DATA metalId timeframe data =>
      { state with metals := state.metals.map fun m =>
          if m.id = metalId then
            { m with historicalData := m.historicalData.insert timeframe data }
          else m }
  | .SET_REFRESHING refreshing =>
      { state with refreshing := refreshing }

/-- The record built by the per-metal async closure in `refreshPrices`:
`{ metalId, price, success: true }` on success,
`{ metalId, error, success: false }` when the thrown error was caught. -/
structure FetchResult where
  metalId : String
  success : Bool
  price : Option MetalPrice := none
  error : Option String := none
deriving DecidableEq, Repr

/-- The per-metal closure of `refreshPrices`: awaits
`goldApi.getMetalPrice(metal.symbol)` and catches any throw, so the
promise always fulfills. -/
def fetchOne (outcomes : MetalSymbol → Except String MetalPrice)
    (metal : MetalData) : FetchResult :=
  match outcomes metal.symbol with
  | .ok price => { metalId := metal.id, success := true, price := some price }
  | .error e => { metalId := metal.id, success := false, error := some e }

/-- One iteration of the `results.forEach` in `refreshPrices`, for a
fulfilled result: dispatch `SET_PRICE_SUCCESS` when `data.success &&
data.price` (an object, truthy whenever present), dispatch `SET_ERROR`
when `!data.success && data.error` (a string, truthy iff non-empty),
otherwise dispatch nothing. -/
def applyResult (now : Int) (state : AppState) (data : FetchResult) : AppState :=
  if data.success then
    match data.price with
    | some price => metalsReducer now state (.SET_PRICE_SUCCESS data.metalId price)
    | none => state
  else
    match data.error with
    | some e => if e = "" then state else metalsReducer now state (.SET_ERROR data.metalId e)
    | none => state

/-- `refreshPrices` from `MetalsContext.tsx`: dispatch `SET_REFRESHING true`,
fan out one caught fetch per `DEFAULT_METALS` entry, `Promise.allSettled`,
fold the fulfilled results into the reducer, dispatch `SET_REFRESHING false`. -/
def refreshPrices (now : Int) (outcomes : MetalSymbol → Except String MetalPrice)
    (state : AppState) : AppState :=
  let s1 := metalsReducer now state (.SET_REFRESHING true)
  let results := DEFAULT_METALS.map (fetchOne outcomes)
  let s2 := results.foldl (applyResult now) s1
  metalsReducer now s2 (.SET_REFRESHING false)

/-- `getMetalById` from `MetalsContext.tsx`:
`state.metals.find(metal => metal.id === id)`. -/
def getMetalById (state : AppState) (id : String) : Option MetalData :=
  state.metals.find? fun metal => metal.id == id

/-- The per-metal task of `refreshPrices` with its throw made explicit in
the `Except` monad: await `goldApi.getMetalPrice` and `catch` any thrown
error into a failure record (`tryCatch` is the `try`/`catch`). -/
def fetchTask (outcomes : MetalSymbol → Except String MetalPrice)
    (metal : MetalData) : Except String FetchResult :=
  tryCatch
    (do
      let price ← outcomes metal.symbol
      pure { metalId := metal.id, success := true, price := some price })
    (fun e => pure { metalId := metal.id, success := false, error := some e })

/-- The explicit-throw model of `refreshPrices`: the body runs in the
`Except` monad, so an uncaught throw would surface as `.error`, and
`Promise.allSettled` collects each task's outcome without
short-circuiting; only fulfilled results are folded in. -/
def refreshPricesE (now : Int) (outcomes : MetalSymbol → Except String MetalPrice)
    (state : AppState) : Except String AppState := do
  let s1 := metalsReducer now state (.SET_REFRESHING true)
  let settled : List (Except String FetchResult) :=
    DEFAULT_METALS.map fun metal => fetchTask outcomes metal
  let s2 := settled.foldl
    (fun s r => match r with
      | .ok data => applyResult now s data
      | .error _ => s) s1
  pure (metalsReducer now s2 (.SET_REFRESHING false))

/-- `Math.PI` (the decimal literal of the IEEE double constant). -/
def mathPI : Rat := 3.141592653589793

/-- `symbol.charCodeAt(0) + symbol.charCodeAt(1)` for the four market
symbols ('X' = 88, 'A' = 65, 'P' = 80). -/
def seedOf : MetalSymbol → Rat
  | .XAU => 88 + 65
  | .XAG => 88 + 65
  | .XPT => 88 + 80
  | .XPD => 88 + 80

/-- The private `historicalCache: Map<string, HistoricalDataPoint[]>` of
`GoldAPIService`, keyed by `symbol-timeframe`. -/
structure ServiceState where
  histCache : List ((MetalSymbol × Timeframe) × List HistoricalDataPoint) := []
deriving DecidableEq, Repr

def ServiceState.lookupHist (svc : ServiceState) (key : MetalSymbol × Timeframe) :
    Option (List HistoricalDataPoint) :=
  (svc.histCache.find? fun e => e.1 == key).map fun e => e.2

namespace GoldAPIService

/-- The cache-miss body of `GoldAPIService.getHistoricalData` from
`goldApi.ts`: synthesize `dataPoints` points from the current quote.
`Math.sin` is the parameter `sinq`; `Date.now()` is `now`. -/
def generateSeries (sinq : Rat → Rat) (now : Int)
    (symbol : MetalSymbol) (timeframe : Timeframe) (currentPriceData : MetalPrice) :
    List HistoricalDataPoint :=
  let endPrice := currentPriceData.price
  let changePercentage := currentPriceData.chp / 100
  let startPrice := endPrice / (1 + changePercentage)
  let dataPoints : Nat :=
    match timeframe with
    | .h24 => 24
    | .week => 7
    | .month => 30
  let timeInterval : Int :=
    match timeframe with
    | .h24 => 60 * 60 * 1000
    | .week => 24 * 60 * 60 * 1000
    | .month => 24 * 60 * 60 * 1000
  let seed := seedOf symbol
  (List.range dataPoints).map fun (i : Nat) =>
    let progress : Rat := (i : Rat) / ((dataPoints : Rat) - 1)
    let wave1 := sinq (progress * mathPI * 2 + seed * (1 / 10)) * (2 / 100)
    let wave2 := sinq (progress * mathPI * 4 + seed * (2 / 10)) * (1 / 100)
    let trend := progress * changePercentage * (1 / 100)
    let priceVariation := (wave1 + wave2 + trend) * endPrice
    let price := startPrice + (endPrice - startPrice) * progress + priceVariation
    { date := now - ((dataPoints : Int) - 1 - (i : Int)) * timeInterval,
      price := max price (endPrice * (85 / 100)) : HistoricalDataPoint }

/-- `GoldAPIService.getHistoricalData` from `goldApi.ts`: return the cached
series for `symbol-timeframe` if present, otherwise synthesize the series
from the current quote, cache and return it. -/
def getHistoricalData (sinq : Rat → Rat) (now : Int) (svc : ServiceState)
    (symbol : MetalSymbol) (timeframe : Timeframe) (currentPriceData : MetalPrice) :
    List HistoricalDataPoint × ServiceState :=
  match svc.lookupHist (symbol, timeframe) with
  | some cached => (cached, svc)
  | none =>
    let historicalData := generateSeries sinq now symbol timeframe currentPriceData
    (historicalData,
     { svc with histCache := ((symbol, timeframe), historicalData) :: svc.histCache })

end GoldAPIService

/-- The store, the service cache, and an instrumentation counter for the
number of `goldApi.getHistoricalData` invocations (upstream history calls). -/
structure World where
  app : AppState
  svc : ServiceState := {}
  histCalls : Nat := 0
deriving DecidableEq, Repr

/-- `fetchHistoricalData` from `MetalsContext.tsx`: look the metal up; no-op
when it is absent or the stored series for the timeframe is non-empty
(`(metal.historicalData?.[timeframe]?.length ?? 0) > 0`); no-op when the
metal has no price; otherwise call `goldApi.getHistoricalData` and dispatch
`SET_HISTORICAL_DATA`.  (The mock service never throws, so the source's
`catch`-and-log branch is unreachable.) -/
def fetchHistoricalData (sinq : Rat → Rat) (now : Int) (metalId : String)
    (timeframe : Timeframe) (w : World) : World :=
  match w.app.metals.find? (fun m => m.id == metalId) with
  | none => w
  | some metal =>
    if 0 < ((metal.historicalData.lookup timeframe).getD []).length then w
    else
      match metal.price with
      | none => w
      | some price =>
        let result := GoldAPIService.getHistoricalData sinq now w.svc
          metal.symbol timeframe price
        { app := metalsReducer now w.app
            (.SET_HISTORICAL_DATA metalId timeframe result.1),
          svc := result.2,
          histCalls := w.histCalls + 1 }

/-! ## Derived definitions used by the verification -/

/-- A concrete quote (rounded XAU mock fixture values; kept integral so
that closed statements evaluate by `decide`). -/
def sampleQuote : MetalPrice :=
  { metal := .XAU, currency := "INR", price := 5850, price_gram_24k := 188,
    timestamp := 0, prev_close_price := 5805, open_price := 5828,
    low_price := 5796, high_price := 5886, ch := 45, chp := 1 }

/-- The `DEFAULT_METALS` entry for each market symbol. -/
def metalFor : MetalSymbol → MetalData
  | .XAU => { id := "gold", name := "Gold", symbol := .XAU, icon := "🥇", loading := false }
  | .XAG => { id := "silver", name := "Silver", symbol := .XAG, icon := "🥈", loading := false }
  | .XPT => { id := "platinum", name := "Platinum", symbol := .XPT, icon := "⚪", loading := false }
  | .XPD => { id := "palladium", name := "Palladium", symbol := .XPD, icon := "⚫", loading := false }

/-- The item id tracking each market symbol. -/
def idOfSymbol (sym : MetalSymbol) : String := (metalFor sym).id

/-- The per-item effect of processing one settled fetch result in the
`results.forEach` of `refreshPrices`. -/
def updOf (data : FetchResult) (m : MetalData) : MetalData :=
  if m.id = data.metalId then
    if data.success then
      match data.price with
      | some price => { m with price := some price, loading := false, error := none }
      | none => m
    else
      match data.error with
      | some e => if e = "" then m else { m with error := some e, loading := false }
      | none => m
  else m

/-- The composite per-item effect of one whole `refreshPrices` batch. -/
def refreshUpdate (outcomes : MetalSymbol → Except String MetalPrice) (m : MetalData) : MetalData :=
  updOf (fetchOne outcomes (metalFor .XPD))
    (updOf (fetchOne outcomes (metalFor .XPT))
      (updOf (fetchOne outcomes (metalFor .XAG))
        (updOf (fetchOne outcomes (metalFor .XAU)) m)))

/-- Per-item mutual exclusion: no item is simultaneously loading and in error. -/
def mutexInv (s : AppState) : Prop :=
  ∀ m ∈ s.metals, m.loading = true → m.error = none

def MetalsAction.isSetLoading : MetalsAction → Bool
  | .SET_LOADING _ _ => true
  | _ => false

/-- The point counts of the spec's three windows. -/
def pointsFor : Timeframe → Nat
  | .h24 => 24
  | .week => 7
  | .month => 30

/-- The sampling interval (ms) of the three windows. -/
def intervalFor : Timeframe → Int
  | .h24 => 60 * 60 * 1000
  | .week => 24 * 60 * 60 * 1000
  | .month => 24 * 60 * 60 * 1000

/-- A zero stand-in for `Math.sin` used in concrete evaluations. -/
def zeroSin : Rat → Rat := fun _ => 0

/-- A price-source stub that fails only for palladium with message
"timeout" and returns the sample quote otherwise. -/
def stubOutcomes : MetalSymbol → Except String MetalPrice
  | .XPD => .error "timeout"
  | _ => .ok sampleQuote

/-- A state with a single item that carries an error and is not loading. -/
def erroredState : AppState :=
  { metals := [ { id := "gold", name := "Gold", symbol := .XAU, icon := "🥇",
                  loading := false, error := some "timeout" } ],
    lastUpdated := none,
    refreshing := false }

/-- A world whose gold item already has a quote and a populated (non-empty)
Week series. -/
def populatedWorld : World :=
  { app := { metals := [ { id := "gold", name := "Gold", symbol := .XAU, icon := "🥇",
                           loading := false, price := some sampleQuote,
                           historicalData := { week := some [ { date := 0, price := 1 } ] } } ],
             lastUpdated := none,
             refreshing := false } }

/-! ## Helper lemmas -/

theorem DEFAULT_METALS_eq :
    DEFAULT_METALS = [metalFor .XAU, metalFor .XAG, metalFor .XPT, metalFor .XPD] := rfl

theorem fetchOne_metalId (outcomes : MetalSymbol → Except String MetalPrice)
    (metal : MetalData) : (fetchOne outcomes metal).metalId = metal.id := by
  unfold fetchOne
  cases outcomes metal.symbol <;> rfl

theorem updOf_id (data : FetchResult) (m : MetalData) : (updOf data m).id = m.id := by
  unfold updOf
  repeat' split
  all_goals rfl

theorem updOf_skip (data : FetchResult) (m : MetalData) (h : m.id ≠ data.metalId) :
    updOf data m = m := by
  unfold updOf
  rw [if_neg h]

theorem applyResult_metals (now : Int) (s : AppState) (data : FetchResult) :
    (applyResult now s data).metals = s.metals.map (updOf data) := by
  rcases data with ⟨mid, succ, price, err⟩
  cases succ with
  | false =>
    cases err with
    | none =>
      rw [show updOf { metalId := mid, success := false, price := price, error := none }
            = fun m => m from funext fun m => by simp [updOf], List.map_id']
      simp [applyResult]
    | some e =>
      by_cases he : e = ""
      · subst he
        rw [show updOf { metalId := mid, success := false, price := price, error := some "" }
              = fun m => m from funext fun m => by simp [updOf], List.map_id']
        simp [applyResult]
      · simp [applyResult, updOf, he, metalsReducer]
  | true =>
    cases price with
    | none =>
      rw [show updOf { metalId := mid, success := true, price := none, error := err }
            = fun m => m from funext fun m => by simp [updOf], List.map_id']
      simp [applyResult]
    | some p => simp [applyResult, updOf, metalsReducer]

theorem foldl_applyResult_metals (now : Int) (rs : List FetchResult) (s : AppState) :
    (rs.foldl (applyResult now) s).metals
      = rs.foldl (fun ms r => ms.map (updOf r)) s.metals := by
  induction rs generalizing s with
  | nil => rfl
  | cons r rs ih => rw [List.foldl_cons, List.foldl_cons, ih, applyResult_metals]

theorem refreshPrices_metals (now : Int) (outcomes : MetalSymbol → Except String MetalPrice)
    (s : AppState) :
    (refreshPrices now outcomes s).metals = s.metals.map (refreshUpdate outcomes) := by
  show ((DEFAULT_METALS.map (fetchOne outcomes)).foldl (applyResult now)
      (metalsReducer now s (.SET_REFRESHING true))).metals = _
  rw [foldl_applyResult_metals, DEFAULT_METALS_eq]
  show ((((s.metals.map _).map _).map _).map _) = _
  simp only [List.map_map]
  rfl

theorem refreshUpdate_id (outcomes : MetalSymbol → Except String MetalPrice) (m : MetalData) :
    (refreshUpdate outcomes m).id = m.id := by
  unfold refreshUpdate
  rw [updOf_id, updOf_id, updOf_id, updOf_id]

theorem find?_map_id_preserving (f : MetalData → MetalData) (hf : ∀ m, (f m).id = m.id)
    (l : List MetalData) (id : String) :
    (l.map f).find? (fun m => m.id == id) = (l.find? (fun m => m.id == id)).map f := by
  rw [List.find?_map]
  have hp : ((fun m => m.id == id) ∘ f) = (fun m : MetalData => m.id == id) :=
    funext fun m => by simp [Function.comp, hf]
  rw [hp]

theorem getMetalById_refreshPrices (now : Int)
    (outcomes : MetalSymbol → Except String MetalPrice) (s : AppState) (id : String) :
    getMetalById (refreshPrices now outcomes s) id
      = (getMetalById s id).map (refreshUpdate outcomes) := by
  unfold getMetalById
  rw [refreshPrices_metals]
  exact find?_map_id_preserving _ (refreshUpdate_id outcomes) _ _

theorem updOf_fetchOne_success (outcomes : MetalSymbol → Except String MetalPrice)
    (metal m : MetalData) (q : MetalPrice) (hid : m.id = metal.id)
    (h : outcomes metal.symbol = .ok q) :
    updOf (fetchOne outcomes metal) m
      = { m with price := some q, loading := false, error := none } := by
  unfold fetchOne
  rw [h]
  simp [updOf, hid]

theorem updOf_fetchOne_error (outcomes : MetalSymbol → Except String MetalPrice)
    (metal m : MetalData) (e : String) (hid : m.id = metal.id)
    (h : outcomes metal.symbol = .error e) (hne : e ≠ "") :
    updOf (fetchOne outcomes metal) m = { m with error := some e, loading := false } := by
  unfold fetchOne
  rw [h]
  simp [updOf, hid, hne]

theorem updOf_fetchOne_skip (outcomes : MetalSymbol → Except String MetalPrice)
    (metal m : MetalData) (hid : m.id ≠ metal.id) :
    updOf (fetchOne outcomes metal) m = m :=
  updOf_skip _ _ (by rw [fetchOne_metalId]; exact hid)

theorem updOf_fetchOne_loading (outcomes : MetalSymbol → Except String MetalPrice)
    (metal m : MetalData) (hid : m.id = metal.id)
    (hne : ∀ e, outcomes metal.symbol = .error e → e ≠ "") :
    (updOf (fetchOne outcomes metal) m).loading = false := by
  cases h : outcomes metal.symbol with
  | ok q => rw [updOf_fetchOne_success outcomes metal m q hid h]
  | error e => rw [updOf_fetchOne_error outcomes metal m e hid h (hne e h)]

theorem refreshUpdate_eq (outcomes : MetalSymbol → Except String MetalPrice)
    (sym : MetalSymbol) (m : MetalData) (hid : m.id = idOfSymbol sym) :
    refreshUpdate outcomes m = updOf (fetchOne outcomes (metalFor sym)) m := by
  cases sym with
  | XAU =>
    unfold refreshUpdate
    rw [updOf_fetchOne_skip outcomes (metalFor .XAG) _ (by rw [updOf_id, hid]; decide),
        updOf_fetchOne_skip outcomes (metalFor .XPT) _ (by rw [updOf_id, hid]; decide),
        updOf_fetchOne_skip outcomes (metalFor .XPD) _ (by rw [updOf_id, hid]; decide)]
  | XAG =>
    unfold refreshUpdate
    rw [updOf_fetchOne_skip outcomes (metalFor .XAU) m (by rw [hid]; decide),
        updOf_fetchOne_skip outcomes (metalFor .XPT) _ (by rw [updOf_id, hid]; decide),
        updOf_fetchOne_skip outcomes (metalFor .XPD) _ (by rw [updOf_id, hid]; decide)]
  | XPT =>
    unfold refreshUpdate
    rw [updOf_fetchOne_skip outcomes (metalFor .XAU) m (by rw [hid]; decide),
        updOf_fetchOne_skip outcomes (metalFor .XAG) m (by rw [hid]; decide),
        updOf_fetchOne_skip outcomes (metalFor .XPD) _ (by rw [updOf_id, hid]; decide)]
  | XPD =>
    unfold refreshUpdate
    rw [updOf_fetchOne_skip outcomes (metalFor .XAU) m (by rw [hid]; decide),
        updOf_fetchOne_skip outcomes (metalFor .XAG) m (by rw [hid]; decide),
        updOf_fetchOne_skip outcomes (metalFor .XPT) m (by rw [hid]; decide)]

theorem metalFor_symbol (sym : MetalSymbol) : (metalFor sym).symbol = sym := by
  cases sym <;> rfl

theorem refreshPrices_refreshing (now : Int)
    (outcomes : MetalSymbol → Except String MetalPrice) (s : AppState) :
    (refreshPrices now outcomes s).refreshing = false := rfl

/-- Existence of a tracked item for every id occurring in `metals`. -/
theorem getMetalById_of_mem_ids (s : AppState) (id : String)
    (h : id ∈ s.metals.map fun m => m.id) :
    ∃ m, getMetalById s id = some m ∧ m.id = id := by
  obtain ⟨m, hm, rfl⟩ := List.mem_map.mp h
  unfold getMetalById
  cases hf : s.metals.find? (fun m' => m'.id == m.id) with
  | none =>
    have hc := List.find?_eq_none.mp hf m hm
    simp at hc
  | some m' =>
    exact ⟨m', rfl, by simpa using List.find?_some hf⟩

theorem HistoricalData.lookup_insert (h : HistoricalData) (tf : Timeframe)
    (d : List HistoricalDataPoint) : (h.insert tf d).lookup tf = some d := by
  cases tf <;> rfl

theorem generateSeries_length (sinq : Rat → Rat) (now : Int) (symbol : MetalSymbol)
    (tf : Timeframe) (q : MetalPrice) :
    (GoldAPIService.generateSeries sinq now symbol tf q).length = pointsFor tf := by
  cases tf <;> simp [GoldAPIService.generateSeries, pointsFor]

theorem generateSeries_ne_nil (sinq : Rat → Rat) (now : Int) (symbol : MetalSymbol)
    (tf : Timeframe) (q : MetalPrice) :
    GoldAPIService.generateSeries sinq now symbol tf q ≠ [] := by
  intro h
  have := generateSeries_length sinq now symbol tf q
  rw [h] at this
  cases tf <;> simp [pointsFor] at this

theorem generateSeries_dates (sinq : Rat → Rat) (now : Int) (symbol : MetalSymbol)
    (tf : Timeframe) (q : MetalPrice) :
    (GoldAPIService.generateSeries sinq now symbol tf q).map (fun p => p.date)
      = (List.range (pointsFor tf)).map
          (fun i => now - (((pointsFor tf : Int) - 1 - (i : Int)) * intervalFor tf)) := by
  cases tf <;> (rw [GoldAPIService.generateSeries, List.map_map]; rfl)

theorem getHistoricalData_miss (sinq : Rat → Rat) (now : Int) (svc : ServiceState)
    (symbol : MetalSymbol) (tf : Timeframe) (q : MetalPrice)
    (hmiss : svc.lookupHist (symbol, tf) = none) :
    GoldAPIService.getHistoricalData sinq now svc symbol tf q
      = (GoldAPIService.generateSeries sinq now symbol tf q,
         { svc with histCache :=
             ((symbol, tf), GoldAPIService.generateSeries sinq now symbol tf q)
               :: svc.histCache }) := by
  unfold GoldAPIService.getHistoricalData
  rw [hmiss]

theorem getHistoricalData_fst_ne_nil (sinq : Rat → Rat) (now : Int) (svc : ServiceState)
    (symbol : MetalSymbol) (tf : Timeframe) (q : MetalPrice)
    (hwf : ∀ l, svc.lookupHist (symbol, tf) = some l → l ≠ []) :
    (GoldAPIService.getHistoricalData sinq now svc symbol tf q).1 ≠ [] := by
  unfold GoldAPIService.getHistoricalData
  cases h : svc.lookupHist (symbol, tf) with
  | some cached => exact hwf cached h
  | none => exact generateSeries_ne_nil sinq now symbol tf q

theorem find?_set_historical (now : Int) (s : AppState) (metalId : String)
    (tf : Timeframe) (data : List HistoricalDataPoint) :
    ((metalsReducer now s (.SET_HISTORICAL_DATA metalId tf data)).metals.find?
        fun m => m.id == metalId)
      = (s.metals.find? fun m => m.id == metalId).map
          (fun m => { m with historicalData := m.historicalData.insert tf data }) := by
  simp only [metalsReducer]
  rw [find?_map_id_preserving _ (fun m => by by_cases h : m.id = metalId <;> simp [h]) _ _]
  cases hf : s.metals.find? (fun m => m.id == metalId) with
  | none => rfl
  | some m =>
    have hid : m.id = metalId := by simpa using List.find?_some hf
    simp [hid]

theorem fetchHistoricalData_noop (sinq : Rat → Rat) (now : Int) (metalId : String)
    (tf : Timeframe) (w : World) (m : MetalData)
    (hfind : getMetalById w.app metalId = some m)
    (hnonempty : (m.historicalData.lookup tf).getD [] ≠ []) :
    fetchHistoricalData sinq now metalId tf w = w := by
  unfold fetchHistoricalData
  unfold getMetalById at hfind
  simp only [hfind]
  rw [if_pos (List.length_pos.mpr hnonempty)]

theorem generated_dates_pairwise (now t : Int) (ht : 0 < t) (n : Nat) :
    ((List.range n).map fun (i : Nat) => now - (((n : Int) - 1 - (i : Int)) * t)).Pairwise
      (· < ·) := by
  refine (List.pairwise_map).mpr ?_
  refine (List.pairwise_lt_range n).imp ?_
  intro a b hab
  have h1 : ((n : Int) - 1 - (b : Int)) < ((n : Int) - 1 - (a : Int)) := by
    omega
  have h2 := Int.mul_lt_mul_of_pos_right h1 ht
  linarith

/-! ## Claim theorems -/

/-- C10: at store creation, before any action is dispatched, the state has
exactly the four items gold, silver, platinum, palladium in that order,
each with `loading = true`, no quote, no error and an empty
`historicalData` map; `lastUpdated` is absent and `refreshing` is false. -/
theorem c10_initial_state_shape :
    (initialState.metals.map fun m => m.id) = ["gold", "silver", "platinum", "palladium"] ∧
    (∀ m ∈ initialState.metals,
      m.loading = true ∧ m.price = none ∧ m.error = none ∧
      m.historicalData = { h24 := none, week := none, month := none }) ∧
    initialState.lastUpdated = none ∧
    initialState.refreshing = false := by
  decide

/-- C9: `getMetalById` is a total pure read: any returned item is a tracked
item with the requested id, and the result is `none` exactly when no
tracked item has that id (so an unknown id yields absence, never a failure). -/
theorem c9_lookup_totality (s : AppState) (id : String) :
    (∀ m, getMetalById s id = some m → m ∈ s.metals ∧ m.id = id) ∧
    (getMetalById s id = none ↔ ∀ m ∈ s.metals, m.id ≠ id) := by
  constructor
  · intro m hm
    exact ⟨List.mem_of_find?_eq_some hm, by simpa using List.find?_some hm⟩
  · unfold getMetalById
    rw [List.find?_eq_none]
    constructor
    · intro h m hm
      simpa using h m hm
    · intro h m hm
      simp [h m hm]

/-- C9 witness: looking up the unknown id "nonexistent" in the initial
state returns absence. -/
theorem c9_lookup_totality_witness : getMetalById initialState "nonexistent" = none :=
  (c9_lookup_totality initialState "nonexistent").2.mpr (by decide)

/-- C7: a `SET_ERROR` action for item `metalId` sets that item's error and
clears its loading flag, leaves its quote exactly as it was, and leaves
every other item, `lastUpdated` and `refreshing` unchanged. -/
theorem c7_failure_frame (now : Int) (s : AppState) (metalId msg : String) :
    (metalsReducer now s (.SET_ERROR metalId msg)).refreshing = s.refreshing ∧
    (metalsReducer now s (.SET_ERROR metalId msg)).lastUpdated = s.lastUpdated ∧
    ∀ i : Nat,
      ((metalsReducer now s (.SET_ERROR metalId msg)).metals.get? i).map (fun m => m.price)
        = (s.metals.get? i).map (fun m => m.price) ∧
      (∀ m, s.metals.get? i = some m → m.id = metalId →
        (metalsReducer now s (.SET_ERROR metalId msg)).metals.get? i
          = some { m with error := some msg, loading := false }) ∧
      (∀ m, s.metals.get? i = some m → m.id ≠ metalId →
        (metalsReducer now s (.SET_ERROR metalId msg)).metals.get? i = some m) := by
  refine ⟨rfl, rfl, ?_⟩
  intro i
  refine ⟨?_, ?_, ?_⟩
  · simp only [metalsReducer, List.get?_map]
    cases h : s.metals.get? i with
    | none => rfl
    | some m =>
      by_cases hid : m.id = metalId <;> simp [hid]
  · intro m hm hid
    simp only [metalsReducer, List.get?_map, hm, Option.map_some']
    rw [if_pos hid]
  · intro m hm hid
    simp only [metalsReducer, List.get?_map, hm, Option.map_some']
    rw [if_neg hid]

/-- C7 witness: the frame property applied to a concrete state and action. -/
theorem c7_failure_frame_witness :
    ((metalsReducer 0 initialState (.SET_ERROR "gold" "timeout")).metals.get? 0).map
        (fun m => m.price) = (initialState.metals.get? 0).map (fun m => m.price) ∧
    (metalsReducer 0 initialState (.SET_ERROR "gold" "timeout")).metals.get? 1
      = initialState.metals.get? 1 := by
  refine ⟨((c7_failure_frame 0 initialState "gold" "timeout").2.2 0).1, ?_⟩
  have h := ((c7_failure_frame 0 initialState "gold" "timeout").2.2 1).2.2
  rw [h { id := "silver", name := "Silver", symbol := .XAG, icon := "🥈",
          loading := true, price := none, error := none,
          historicalData := { h24 := none, week := none, month := none } }
        (by decide) (by decide)]
  decide

/-- C6: `fetchHistoricalData` on an item that exists but has no quote yet
is a complete no-op: zero upstream calls, the whole world (store state,
service cache, call count) unchanged, and it returns normally. -/
theorem c6_history_requires_quote (sinq : Rat → Rat) (now : Int) (w : World)
    (metalId : String) (tf : Timeframe) (m : MetalData)
    (hfind : getMetalById w.app metalId = some m) (hq : m.price = none) :
    fetchHistoricalData sinq now metalId tf w = w := by
  unfold fetchHistoricalData
  unfold getMetalById at hfind
  simp only [hfind, hq, ite_self]

/-- C6 witness: fetching history for palladium (no quote yet) in the
initial state changes nothing. -/
theorem c6_history_requires_quote_witness :
    fetchHistoricalData zeroSin 0 "palladium" Timeframe.week { app := initialState }
      = { app := initialState } :=
  c6_history_requires_quote zeroSin 0 { app := initialState } "palladium" .week
    { id := "palladium", name := "Palladium", symbol := .XPD, icon := "⚫",
      loading := true, price := none, error := none,
      historicalData := { h24 := none, week := none, month := none } }
    (by decide) rfl

/-- C3 counterexample: on a state whose only item has a prior error and is
not loading (which satisfies the mutual-exclusion predicate), dispatching
`SET_LOADING("gold", true)` yields an item with `loading = true` and a
still-present error: the reducer does not clear a prior error at dispatch
time, and `SET_LOADING` does not preserve the predicate. -/
theorem c3_counterexample :
    mutexInv erroredState ∧
    ¬ mutexInv (metalsReducer 0 erroredState (.SET_LOADING "gold" true)) ∧
    (getMetalById (metalsReducer 0 erroredState (.SET_LOADING "gold" true)) "gold").map
        (fun m => (m.loading, m.error)) = some (true, some "timeout") := by
  refine ⟨?_, ?_, by decide⟩
  · exact (by decide : ∀ m ∈ erroredState.metals, m.loading = true → m.error = none)
  · intro h
    exact absurd h
      (by decide :
        ¬ ∀ m ∈ (metalsReducer 0 erroredState (.SET_LOADING "gold" true)).metals,
            m.loading = true → m.error = none)

/-- C3 amended: every reducer action other than `SET_LOADING` preserves the
per-item mutual exclusion of `loading = true` and a present error, and
`SET_LOADING` never changes any item's error field — so a fresh fetch does
NOT clear a prior error at dispatch time (errors are cleared only by
`SET_PRICE_SUCCESS` at completion), and `SET_LOADING(id, true)` on an
errored item violates the predicate. -/
theorem c3_mutual_exclusion (now : Int) (s : AppState) (a : MetalsAction) :
    (mutexInv s → a.isSetLoading = false → mutexInv (metalsReducer now s a)) ∧
    (∀ metalId loading,
      ((metalsReducer now s (.SET_LOADING metalId loading)).metals.map fun m => m.error)
        = s.metals.map fun m => m.error) := by
  constructor
  · intro hinv ha m' hm'
    cases a with
    | SET_LOADING mid b => simp [MetalsAction.isSetLoading] at ha
    | SET_PRICE_SUCCESS mid p =>
      simp only [metalsReducer] at hm'
      obtain ⟨m, hm, rfl⟩ := List.mem_map.mp hm'
      by_cases h : m.id = mid
      · simp [h]
      · simp only [if_neg h]
        exact hinv m hm
    | SET_ERROR mid e =>
      simp only [metalsReducer] at hm'
      obtain ⟨m, hm, rfl⟩ := List.mem_map.mp hm'
      by_cases h : m.id = mid
      · simp [h]
      · simp only [if_neg h]
        exact hinv m hm
    | SET_HISTORICAL_DATA mid tf d =>
      simp only [metalsReducer] at hm'
      obtain ⟨m, hm, rfl⟩ := List.mem_map.mp hm'
      by_cases h : m.id = mid
      · simp only [if_pos h]
        exact hinv m hm
      · simp only [if_neg h]
        exact hinv m hm
    | SET_REFRESHING b =>
      exact hinv m' hm'
  · intro metalId loading
    simp only [metalsReducer, List.map_map]
    apply List.map_congr_left
    intro m _
    by_cases h : m.id = metalId <;> simp [h, Function.comp]

/-- C3 witness: the preservation half applied at a concrete state and
action, and the error-frame half at a concrete `SET_LOADING`. -/
theorem c3_mutual_exclusion_witness :
    mutexInv (metalsReducer 0 initialState (.SET_ERROR "gold" "timeout")) ∧
    ((metalsReducer 0 erroredState (.SET_LOADING "gold" true)).metals.map fun m => m.error)
      = erroredState.metals.map fun m => m.error :=
  ⟨(c3_mutual_exclusion 0 initialState (.SET_ERROR "gold" "timeout")).1
      (by exact (by decide : ∀ m ∈ initialState.metals, m.loading = true → m.error = none))
      rfl,
   (c3_mutual_exclusion 0 erroredState (.SET_LOADING "x" false)).2 "gold" true⟩

/-- C1: when the price source fails (message "timeout") for exactly one
symbol S and succeeds for every other symbol, `refreshPrices` sets S's
item's error to "timeout" and leaves its quote absent when it never
succeeded before, while every other item ends with a quote set and no
error: one item's failure never prevents another's successful update. -/
theorem c1_partial_failure_isolation (now : Int)
    (outcomes : MetalSymbol → Except String MetalPrice) (S : MetalSymbol) (s : AppState)
    (hids : (s.metals.map fun m => m.id) = ["gold", "silver", "platinum", "palladium"])
    (hS : outcomes S = .error "timeout")
    (hothers : ∀ sym, sym ≠ S → ∃ q, outcomes sym = .ok q) :
    (∃ mS, getMetalById (refreshPrices now outcomes s) (idOfSymbol S) = some mS ∧
      mS.error = some "timeout" ∧
      (∀ m0, getMetalById s (idOfSymbol S) = some m0 → m0.price = none →
        mS.price = none)) ∧
    (∀ sym, sym ≠ S →
      ∃ m, getMetalById (refreshPrices now outcomes s) (idOfSymbol sym) = some m ∧
        m.error = none ∧ ∃ q, m.price = some q) := by
  have hmem : ∀ sym : MetalSymbol, idOfSymbol sym ∈ s.metals.map fun m => m.id := by
    intro sym
    rw [hids]
    cases sym <;> decide
  constructor
  · obtain ⟨m0, hfind, hid0⟩ := getMetalById_of_mem_ids s _ (hmem S)
    have hupd : refreshUpdate outcomes m0 = { m0 with error := some "timeout", loading := false } := by
      rw [refreshUpdate_eq outcomes S m0 hid0,
          updOf_fetchOne_error outcomes _ m0 "timeout" hid0
            (by rw [metalFor_symbol]; exact hS) (by decide)]
    refine ⟨refreshUpdate outcomes m0, ?_, ?_, ?_⟩
    · rw [getMetalById_refreshPrices, hfind]
      rfl
    · rw [hupd]
    · intro m0' hfind' hp
      rw [hfind] at hfind'
      injection hfind' with he
      subst he
      rw [hupd]
      exact hp
  · intro sym hsym
    obtain ⟨q, hq⟩ := hothers sym hsym
    obtain ⟨m1, hfind1, hid1⟩ := getMetalById_of_mem_ids s _ (hmem sym)
    have hupd : refreshUpdate outcomes m1
        = { m1 with price := some q, loading := false, error := none } := by
      rw [refreshUpdate_eq outcomes sym m1 hid1,
          updOf_fetchOne_success outcomes _ m1 q hid1 (by rw [metalFor_symbol]; exact hq)]
    refine ⟨refreshUpdate outcomes m1, ?_, ?_, ⟨q, ?_⟩⟩
    · rw [getMetalById_refreshPrices, hfind1]
      rfl
    · rw [hupd]
    · rw [hupd]

/-- C1 witness: the stub failing only for palladium with "timeout" and
succeeding elsewhere, applied to the initial state. -/
theorem c1_partial_failure_isolation_witness :
    (∃ mS, getMetalById (refreshPrices 0 stubOutcomes initialState) (idOfSymbol .XPD)
        = some mS ∧
      mS.error = some "timeout" ∧
      (∀ m0, getMetalById initialState (idOfSymbol .XPD) = some m0 → m0.price = none →
        mS.price = none)) ∧
    (∀ sym, sym ≠ MetalSymbol.XPD →
      ∃ m, getMetalById (refreshPrices 0 stubOutcomes initialState) (idOfSymbol sym)
          = some m ∧
        m.error = none ∧ ∃ q, m.price = some q) :=
  c1_partial_failure_isolation 0 stubOutcomes .XPD initialState (by decide) rfl
    (by
      intro sym h
      cases sym
      · exact ⟨sampleQuote, rfl⟩
      · exact ⟨sampleQuote, rfl⟩
      · exact ⟨sampleQuote, rfl⟩
      · exact absurd rfl h)

/-- C2 counterexample: with every symbol failing with the empty message
(`new Error("")`), the `!data.success && data.error` guard is falsy, no
`SET_ERROR` is dispatched, and the gold item of the initial state still
has `loading = true` after `refreshPrices` resolves — refuting the claim
that every outcome assignment ends with all items' loading cleared. -/
theorem c2_counterexample :
    (getMetalById (refreshPrices 0 (fun _ => Except.error "") initialState) "gold").map
        (fun m => m.loading) = some true := by
  decide

/-- C2 amended: for every state tracking the four default ids and every
outcome assignment in which each failure carries a NON-EMPTY error
message, after `refreshPrices` resolves every tracked item has
`loading = false` and the store has `refreshing = false`.  (With an empty
message the truthiness guard skips the dispatch and loading can persist.) -/
theorem c2_batch_completion (now : Int)
    (outcomes : MetalSymbol → Except String MetalPrice) (s : AppState)
    (hids : (s.metals.map fun m => m.id) = ["gold", "silver", "platinum", "palladium"])
    (hmsg : ∀ sym e, outcomes sym = .error e → e ≠ "") :
    (∀ m ∈ (refreshPrices now outcomes s).metals, m.loading = false) ∧
    (refreshPrices now outcomes s).refreshing = false := by
  refine ⟨?_, rfl⟩
  intro m' hm'
  rw [refreshPrices_metals] at hm'
  obtain ⟨m, hm, rfl⟩ := List.mem_map.mp hm'
  have hidmem : m.id ∈ (["gold", "silver", "platinum", "palladium"] : List String) := by
    rw [← hids]
    exact List.mem_map_of_mem _ hm
  have hsym : ∃ sym : MetalSymbol, m.id = idOfSymbol sym := by
    simp only [List.mem_cons, List.not_mem_nil, or_false] at hidmem
    rcases hidmem with h | h | h | h
    exacts [⟨.XAU, h⟩, ⟨.XAG, h⟩, ⟨.XPT, h⟩, ⟨.XPD, h⟩]
  obtain ⟨sym, hid⟩ := hsym
  rw [refreshUpdate_eq outcomes sym m hid]
  exact updOf_fetchOne_loading outcomes _ m hid (fun e he => hmsg _ e he)

/-- C2 witness: the amended claim applied to the initial state and the
palladium-fails-with-"timeout" stub. -/
theorem c2_batch_completion_witness :
    (∀ m ∈ (refreshPrices 0 stubOutcomes initialState).metals, m.loading = false) ∧
    (refreshPrices 0 stubOutcomes initialState).refreshing = false :=
  c2_batch_completion 0 stubOutcomes initialState (by decide)
    (by
      intro sym e h
      cases sym <;> simp [stubOutcomes] at h
      subst h
      decide)

/-- C4: the per-metal `catch` means no task ever rejects, so the
explicit-throw model of `refreshPrices` always resolves with `.ok` of the
pure batch result: `refreshAll()` never rejects, and each failure is
captured only as a failure record folded into that item's error field. -/
theorem c4_refreshAll_never_rejects (now : Int)
    (outcomes : MetalSymbol → Except String MetalPrice) (s : AppState) :
    (∀ metal, fetchTask outcomes metal = Except.ok (fetchOne outcomes metal)) ∧
    refreshPricesE now outcomes s = Except.ok (refreshPrices now outcomes s) := by
  have htask : ∀ metal, fetchTask outcomes metal = Except.ok (fetchOne outcomes metal) := by
    intro metal
    unfold fetchTask
    cases h : outcomes metal.symbol <;>
      simp [fetchOne, h, tryCatch, tryCatchThe, Except.tryCatch, bind, Except.bind, pure,
        Except.pure, MonadExceptOf.tryCatch]
  refine ⟨htask, ?_⟩
  unfold refreshPricesE refreshPrices
  simp only [htask, List.foldl_map, pure, Except.pure]

/-- C5 counterexample: on a world whose gold item has a present quote but
also an already-populated Week series, both sequential
`fetchHistoricalData("gold", Week)` calls are no-ops, so the two calls
perform zero upstream history calls, not exactly one as claimed. -/
theorem c5_counterexample :
    (getMetalById populatedWorld.app "gold").map (fun m => m.price.isSome) = some true ∧
    fetchHistoricalData zeroSin 0 "gold" Timeframe.week populatedWorld = populatedWorld ∧
    ¬ ((fetchHistoricalData zeroSin 0 "gold" Timeframe.week
          (fetchHistoricalData zeroSin 0 "gold" Timeframe.week populatedWorld)).histCalls
        = populatedWorld.histCalls + 1) := by
  decide

/-- C5 amended: for an item with a present quote whose series for the
window is still absent or empty (and a service cache holding only
non-empty series, as every generated series is), the first
`fetchHistoricalData(id, window)` performs exactly one upstream call and
the second call is a complete no-op — the stored series is unchanged and
never overwritten.  (If the window's series was already populated before
the first call, both calls are no-ops and zero upstream calls occur.) -/
theorem c5_write_once_history (sinq : Rat → Rat) (now : Int) (w : World)
    (metalId : String) (tf : Timeframe) (m : MetalData)
    (hfind : getMetalById w.app metalId = some m)
    (hq : m.price.isSome = true)
    (hempty : (m.historicalData.lookup tf).getD [] = [])
    (hwf : ∀ l, w.svc.lookupHist (m.symbol, tf) = some l → l ≠ []) :
    (fetchHistoricalData sinq now metalId tf w).histCalls = w.histCalls + 1 ∧
    fetchHistoricalData sinq now metalId tf (fetchHistoricalData sinq now metalId tf w)
      = fetchHistoricalData sinq now metalId tf w := by
  obtain ⟨price, hp⟩ := Option.isSome_iff_exists.mp hq
  have hw1 : fetchHistoricalData sinq now metalId tf w =
      { app := metalsReducer now w.app
          (.SET_HISTORICAL_DATA metalId tf
            (GoldAPIService.getHistoricalData sinq now w.svc m.symbol tf price).1),
        svc := (GoldAPIService.getHistoricalData sinq now w.svc m.symbol tf price).2,
        histCalls := w.histCalls + 1 } := by
    unfold fetchHistoricalData
    unfold getMetalById at hfind
    simp only [hfind, hempty, hp]
    rw [if_neg (by decide : ¬ (0 : Nat) < ([] : List HistoricalDataPoint).length)]
  refine ⟨by rw [hw1], ?_⟩
  rw [hw1]
  refine fetchHistoricalData_noop sinq now metalId tf _
    { m with historicalData := (m.historicalData.insert tf
        (GoldAPIService.getHistoricalData sinq now w.svc m.symbol tf price).1) }
    ?_ ?_
  · show getMetalById (metalsReducer now w.app
        (.SET_HISTORICAL_DATA metalId tf
          (GoldAPIService.getHistoricalData sinq now w.svc m.symbol tf price).1))
        metalId = _
    unfold getMetalById
    unfold getMetalById at hfind
    rw [find?_set_historical, hfind, Option.map_some']
  · show ((m.historicalData.insert tf
        (GoldAPIService.getHistoricalData sinq now w.svc m.symbol tf price).1).lookup
          tf).getD [] ≠ []
    rw [HistoricalData.lookup_insert, Option.getD_some]
    exact getHistoricalData_fst_ne_nil sinq now w.svc m.symbol tf price hwf

/-- C5 witness: a first fetch of gold's Week history after a successful
refresh performs one upstream call and the second call is a no-op. -/
theorem c5_write_once_history_witness :
    (fetchHistoricalData zeroSin 0 "gold" Timeframe.week
        { app := refreshPrices 0 stubOutcomes initialState }).histCalls
      = ({ app := refreshPrices 0 stubOutcomes initialState } : World).histCalls + 1 ∧
    fetchHistoricalData zeroSin 0 "gold" Timeframe.week
        (fetchHistoricalData zeroSin 0 "gold" Timeframe.week
          { app := refreshPrices 0 stubOutcomes initialState })
      = fetchHistoricalData zeroSin 0 "gold" Timeframe.week
          { app := refreshPrices 0 stubOutcomes initialState } :=
  c5_write_once_history zeroSin 0 { app := refreshPrices 0 stubOutcomes initialState }
    "gold" .week
    { id := "gold", name := "Gold", symbol := .XAU, icon := "🥇",
      loading := false, price := some sampleQuote, error := none,
      historicalData := { h24 := none, week := none, month := none } }
    (by decide) rfl rfl
    (fun l h => by simp [ServiceState.lookupHist] at h)

/-- C8: on a service-cache miss, a successful history fetch returns exactly
24 points for the short window, 7 for Week and 30 for Month, and the
points' timestamps are strictly increasing. -/
theorem c8_series_shape (sinq : Rat → Rat) (now : Int) (svc : ServiceState)
    (symbol : MetalSymbol) (tf : Timeframe) (q : MetalPrice)
    (hmiss : svc.lookupHist (symbol, tf) = none) :
    (GoldAPIService.getHistoricalData sinq now svc symbol tf q).1.length = pointsFor tf ∧
    ((GoldAPIService.getHistoricalData sinq now svc symbol tf q).1.map
        fun p => p.date).Pairwise (· < ·) := by
  rw [getHistoricalData_miss sinq now svc symbol tf q hmiss]
  refine ⟨generateSeries_length sinq now symbol tf q, ?_⟩
  show ((GoldAPIService.generateSeries sinq now symbol tf q).map fun p => p.date).Pairwise _
  rw [generateSeries_dates]
  cases tf with
  | h24 => exact generated_dates_pairwise now (60 * 60 * 1000) (by decide) 24
  | week => exact generated_dates_pairwise now (24 * 60 * 60 * 1000) (by decide) 7
  | month => exact generated_dates_pairwise now (24 * 60 * 60 * 1000) (by decide) 30

/-- C8 witness: the Week series generated for gold from the sample quote
with an empty service cache has 7 points with strictly increasing dates. -/
theorem c8_series_shape_witness :
    (GoldAPIService.getHistoricalData zeroSin 0 {} .XAU .week sampleQuote).1.length
      = pointsFor .week ∧
    ((GoldAPIService.getHistoricalData zeroSin 0 {} .XAU .week sampleQuote).1.map
        fun p => p.date).Pairwise (· < ·) :=
  c8_series_shape zeroSin 0 {} .XAU .week sampleQuote rfl
